import Mathlib

/-!
Shallow embedding of `src/main.py` (EasyJetCollector): airport coordinate
table, Haversine distance, the sequential flight-collection loop, CSV
serialization and the console line formatter, together with proofs of the
specification's claims about them.

Python floats are modelled as real numbers (for the trigonometric distance
computation) and as exact rationals with an adjoined infinity (for fares,
where the only operations are `min` and the `float('inf')` sentinel).
-/

/-- Models `EasyJetCollector._load_airport_coordinates` and the
`self.airport_coords` dict: a lookup from IATA code to the hard-coded
(latitude, longitude) pair; `none` models absence of the key. -/
def airport_coords : String → Option (ℝ × ℝ) := fun code =>
  if code = "LGW" then some (51.1537, -0.1821)
  else if code = "BCN" then some (41.2974, 2.0833)
  else if code = "CDG" then some (49.0097, 2.5479)
  else none

/-- Models Python `math.radians`: degrees to radians. -/
noncomputable def radians (d : ℝ) : ℝ := d * (Real.pi / 180)

open Classical in
/-- Models Python `math.atan2 y x` on real arguments (the C convention:
quadrant-correct arctangent; `atan2 0 0 = 0`). The source only ever calls it
with a positive second argument. -/
noncomputable def atan2 (y x : ℝ) : ℝ :=
  if 0 < x then Real.arctan (y / x)
  else if x < 0 ∧ 0 ≤ y then Real.arctan (y / x) + Real.pi
  else if x < 0 ∧ y < 0 then Real.arctan (y / x) - Real.pi
  else if x = 0 ∧ 0 < y then Real.pi / 2
  else if x = 0 ∧ y < 0 then -(Real.pi / 2)
  else 0

/-- Models Python `round(x, 2)`: rounding to the nearest multiple of 1/100.
(Python breaks exact half-way ties to even; `round` here breaks them upward.
No value in this development sits on a tie, so the difference is inert.) -/
noncomputable def round2 (x : ℝ) : ℝ := (round (100 * x) : ℤ) / 100

/-- Models `EasyJetCollector.calculate_distance`: Haversine distance in km
between the two airports' table coordinates, rounded to 2 decimals; `0.0`
when either code is absent from the coordinate table. -/
noncomputable def calculate_distance (origin destination : String) : ℝ :=
  match airport_coords origin, airport_coords destination with
  | some c1, some c2 =>
    let lat1 := radians c1.1
    let lon1 := radians c1.2
    let lat2 := radians c2.1
    let lon2 := radians c2.2
    let dlat := lat2 - lat1
    let dlon := lon2 - lon1
    let a := Real.sin (dlat / 2) ^ 2 +
      Real.cos lat1 * Real.cos lat2 * Real.sin (dlon / 2) ^ 2
    let c := 2 * atan2 (Real.sqrt a) (Real.sqrt (1 - a))
    round2 (6371 * c)
  | _, _ => 0

/-- Models one element of the parsed `routes` JSON array. The source only
ever reads the `destination` key (`route['destination']`, a raising lookup);
`none` models a record lacking that key. -/
structure RouteRecord where
  destination : Option String

/-- Models the parsed body of the routes response. The source reads it with
`response.json().get('routes', [])`; `none` models a body without `routes`. -/
structure RoutesBody where
  routes : Option (List RouteRecord)

/-- Models the nested `pricing` object of one flight record; the source
reads `pricing.get('lowestFare', float('inf'))`. Fares are exact rationals. -/
structure Pricing where
  lowestFare : Option ℚ

/-- Models one element of the parsed `flights` JSON array; the source reads
it with `flight.get('pricing', {})`. -/
structure Flight where
  pricing : Option Pricing

/-- Models the parsed body of a flights response, read with
`flight_response.json().get('flights', [])`. -/
structure FlightsBody where
  flights : Option (List Flight)

/-- Outcome of one `requests.get(...)` + `raise_for_status()` pair:
`fail` stands for a raised `requests.exceptions.RequestException`
(connection error, or an error status raised by `raise_for_status`);
`ok body` stands for a 2xx response whose JSON parsed to `body`. -/
inductive Transport (β : Type) : Type
  | fail : Transport β
  | ok (body : β) : Transport β

/-- The external HTTP API as seen by one run of `get_all_flights`:
the routes response for the fixed origin, and the flights response as a
function of (origin, destination, date). The constant `adult=1` query
parameter never varies and is not modelled. -/
structure Api where
  routesResp : Transport RoutesBody
  flightsResp : String → String → String → Transport FlightsBody

/-- Models the generator expression
`flight.get('pricing', {}).get('lowestFare', float('inf'))`:
the effective fare of one flight record, `⊤` playing `float('inf')`. -/
def effFare (f : Flight) : WithTop ℚ :=
  match f.pricing with
  | none => ⊤
  | some p =>
    match p.lowestFare with
    | none => ⊤
    | some q => (q : WithTop ℚ)

/-- Models `min(flight.get('pricing', {}).get('lowestFare', float('inf'))
for flight in flights)`. On the non-empty lists the source applies it to,
folding `min` with the `⊤` base is exactly Python's `min`. -/
def lowestPrice (fs : List Flight) : WithTop ℚ :=
  (fs.map effFare).foldr min ⊤

/-- One result row `[distance, destination, lowest_price]`. -/
abbrev Row : Type := ℝ × String × WithTop ℚ

/-- Errors that can escape the body of the `try` block: a transport error
(caught by the `except` clause) or the `KeyError` from `route['destination']`
(not a `RequestException`, hence not caught). -/
inductive RunError : Type
  | transport : RunError
  | keyError : RunError

/-- Models the `for route in all_destinations` loop of
`EasyJetCollector.get_all_flights`: per route, read `route['destination']`
(raising `KeyError` when absent), fetch the flights response (raising on
transport failure), and when the flights list is non-empty append the row
`(distance, destination, lowest_price)`. Rows keep the order of the routes
list; the first raise aborts the rest of the loop. -/
noncomputable def processRoutes (api : Api) (origin date : String) :
    List RouteRecord → Except RunError (List Row)
  | [] => .ok []
  | r :: rs =>
    match r.destination with
    | none => .error .keyError
    | some dest =>
      match api.flightsResp origin dest date with
      | .fail => .error .transport
      | .ok fb =>
        match processRoutes api origin date rs with
        | .error e => .error e
        | .ok rest =>
          let flights := fb.flights.getD []
          if flights.isEmpty then .ok rest
          else .ok ((calculate_distance origin dest, dest, lowestPrice flights) :: rest)

/-- The body of the `try` block of `get_all_flights`: the routes request
followed by the per-destination loop. -/
noncomputable def runCollection (api : Api) (origin date : String) :
    Except RunError (List Row) :=
  match api.routesResp with
  | .fail => .error .transport
  | .ok rb => processRoutes api origin date (rb.routes.getD [])

/-- Models `EasyJetCollector.get_all_flights`: the `except
requests.exceptions.RequestException` clause converts a transport error into
the value `[]` (after logging); a `KeyError` propagates unhandled. -/
noncomputable def get_all_flights (api : Api) (origin date : String) :
    Except RunError (List Row) :=
  match runCollection api origin date with
  | .error .transport => .ok []
  | other => other

/-- Observer used in the statements below: the flights list the loop would
extract for a destination (the parsed list behind a successful response,
`[]` for a missing `flights` key; unused on the failure branch). -/
def flightsListOf (api : Api) (origin date dest : String) : List Flight :=
  match api.flightsResp origin dest date with
  | .fail => []
  | .ok fb => fb.flights.getD []

/-- One value handed to the `csv` writer: a string (header fields), a
distance (a real produced by `calculate_distance`) or a price. The CSV file
is modelled as the sequence of records written, not as rendered text. -/
inductive Cell : Type
  | str (s : String) : Cell
  | dist (x : ℝ) : Cell
  | price (p : WithTop ℚ) : Cell

/-- Models `csv.writer.writerow`: appends one record to the file. -/
def writerow (file : List (List Cell)) (row : List Cell) : List (List Cell) :=
  file ++ [row]

/-- Models `csv.writer.writerows`: appends each record in turn. -/
def writerows (file : List (List Cell)) (rows : List (List Cell)) :
    List (List Cell) :=
  rows.foldl writerow file

/-- The header record `['Distance (km)', 'Destination', 'Lowest Price']`. -/
def headerRecord : List Cell :=
  [.str "Distance (km)", .str "Destination", .str "Lowest Price"]

/-- The CSV record for one result row `[distance, destination, price]`. -/
def rowCells (r : Row) : List Cell :=
  [.dist r.1, .str r.2.1, .price r.2.2]

/-- Models `EasyJetCollector.save_to_csv`: on a fresh file, one `writerow`
with the header and then `writerows` with the data. -/
def save_to_csv (data : List Row) : List (List Cell) :=
  writerows (writerow [] headerRecord) (data.map rowCells)

/-- Models Python string formatting with a minimum width and default (left)
alignment for `str` values, as in `f"{destination:11}"`: pad on the right
with spaces up to the width; a longer value is kept whole, never truncated. -/
def padStrField (w : Nat) (s : String) : String :=
  s ++ String.replicate (w - s.length) ' '

/-- Models the minimum-width padding of a numeric field such as
`f"{distance:11.2f}"`: numbers right-align, so padding goes on the left. -/
def padNumField (w : Nat) (s : String) : String :=
  String.replicate (w - s.length) ' ' ++ s

/-- Two-digit rendering of a number below 100 (the cents of a `%.2f`). -/
def twoDigits (k : Nat) : String :=
  if k < 10 then "0" ++ toString k else toString k

/-- Decimal rendering of `n / 100` with exactly two digits after the point:
the shared core of the `%.2f` fixed-point conversions below. -/
def fixed2core (n : ℤ) : String :=
  (if n < 0 then "-" else "") ++ toString (n.natAbs / 100) ++ "." ++ twoDigits (n.natAbs % 100)

/-- Models `%.2f` applied to a (real-valued) float: the decimal numeral of
the value rounded to the nearest hundredth, with two digits after the point. -/
noncomputable def fixed2R (x : ℝ) : String := fixed2core (round (100 * x))

/-- Models `%.2f` applied to an exact rational fare. -/
def fixed2Q (q : ℚ) : String := fixed2core (round (100 * q))

/-- Models `%.2f` applied to a fare that may be the `float('inf')` sentinel:
Python renders infinity as `inf` (precision is ignored). -/
def fixed2Price : WithTop ℚ → String
  | none => "inf"
  | some q => fixed2Q q

/-- Models the console line
`f"{distance:11.2f} | {destination:11} | {price:5.2f}"` printed by `main`. -/
noncomputable def formatLine (r : Row) : String :=
  padNumField 11 (fixed2R r.1) ++ " | " ++ padStrField 11 r.2.1 ++ " | " ++
    padNumField 5 (fixed2Price r.2.2)

/-- Concrete environment whose routes request fails at the transport level. -/
def apiFail : Api := ⟨.fail, fun _ _ _ => .fail⟩

/-- Concrete routes body listing the destinations BCN and CDG. -/
def rbOk : RoutesBody := ⟨some [⟨some "BCN"⟩, ⟨some "CDG"⟩]⟩

/-- Concrete environment for the success scenario: two routes, one flight
with fare 80 to BCN, an empty flights list for every other destination. -/
def apiOk : Api :=
  ⟨.ok rbOk,
   fun _ d _ =>
     if d = "BCN" then .ok ⟨some [⟨some ⟨some 80⟩⟩]⟩ else .ok ⟨some []⟩⟩

/-- The rows `runCollection` produces in the environment `apiOk`. -/
noncomputable def rowsOk : List Row :=
  [(calculate_distance "LGW" "BCN", "BCN", ((80 : ℚ) : WithTop ℚ))]

/-- Concrete environment whose routes body holds one record lacking the
`destination` key. -/
def apiKey : Api := ⟨.ok ⟨some [⟨none⟩]⟩, fun _ _ _ => .ok ⟨some []⟩⟩

/-- Appending records one by one starts from the existing file content. -/
theorem writerows_eq_append (file : List (List Cell)) (rows : List (List Cell)) :
    writerows file rows = file ++ rows := by
  induction rows generalizing file with
  | nil => simp [writerows]
  | cons r rs ih =>
    show writerows (writerow file r) rs = _
    rw [ih]
    simp [writerow]

/-- C8: `save_to_csv` writes the header record first and then one CSV record
per row in exactly the order given; on the empty sequence (the failure
scenario) the file holds the header and nothing else. -/
theorem C8_csv_header_then_rows (data : List Row) :
    save_to_csv data = headerRecord :: data.map rowCells ∧
    save_to_csv [] = [headerRecord] := by
  constructor
  · show writerows (writerow [] headerRecord) (data.map rowCells) = _
    rw [writerows_eq_append]
    rfl
  · rfl

/-- C2: when either airport code is absent from the coordinate table,
`calculate_distance` returns exactly 0, regardless of the other argument. -/
theorem C2_unknown_airport_zero (origin destination : String)
    (h : airport_coords origin = none ∨ airport_coords destination = none) :
    calculate_distance origin destination = 0 := by
  rcases h with h | h
  · simp [calculate_distance, h]
  · cases ho : airport_coords origin with
    | none => simp [calculate_distance, ho]
    | some c => simp [calculate_distance, ho, h]

/-- Instance of C2 at a code absent from the table. -/
theorem C2_unknown_airport_zero_witness : calculate_distance "AAA" "BCN" = 0 :=
  C2_unknown_airport_zero "AAA" "BCN" (Or.inl rfl)

/-- C5: for airports with known coordinates the Haversine distance is
symmetric in its two arguments (exactly, over the reals). -/
theorem C5_distance_symm (a b : String)
    (ha : (airport_coords a).isSome) (hb : (airport_coords b).isSome) :
    calculate_distance a b = calculate_distance b a := by
  rcases Option.isSome_iff_exists.mp ha with ⟨⟨la1, lo1⟩, h1⟩
  rcases Option.isSome_iff_exists.mp hb with ⟨⟨la2, lo2⟩, h2⟩
  simp only [calculate_distance, h1, h2]
  have hA : Real.sin ((radians la2 - radians la1) / 2) ^ 2 +
      Real.cos (radians la1) * Real.cos (radians la2) *
        Real.sin ((radians lo2 - radians lo1) / 2) ^ 2 =
      Real.sin ((radians la1 - radians la2) / 2) ^ 2 +
      Real.cos (radians la2) * Real.cos (radians la1) *
        Real.sin ((radians lo1 - radians lo2) / 2) ^ 2 := by
    rw [show (radians la1 - radians la2) / 2 = -((radians la2 - radians la1) / 2) by ring,
      show (radians lo1 - radians lo2) / 2 = -((radians lo2 - radians lo1) / 2) by ring,
      Real.sin_neg, Real.sin_neg]
    ring
  rw [hA]

/-- Instance of C5 at the two known airports LGW and BCN. -/
theorem C5_distance_symm_witness :
    calculate_distance "LGW" "BCN" = calculate_distance "BCN" "LGW" :=
  C5_distance_symm "LGW" "BCN" rfl rfl

/-- C6: the distance from a known airport to itself is exactly 0. -/
theorem C6_self_distance_zero (a : String)
    (ha : (airport_coords a).isSome) : calculate_distance a a = 0 := by
  rcases Option.isSome_iff_exists.mp ha with ⟨⟨la, lo⟩, h⟩
  simp only [calculate_distance, h]
  norm_num [sub_self, Real.sin_zero, Real.sqrt_zero, Real.sqrt_one, atan2,
    Real.arctan_zero, round2]

/-- Instance of C6 at LGW. -/
theorem C6_self_distance_zero_witness : calculate_distance "LGW" "LGW" = 0 :=
  C6_self_distance_zero "LGW" rfl

/-- When every record ahead of `r` carries a destination and the flights
request for `r`'s destination fails, the loop raises the (caught) transport
error: either an earlier request already failed, or control reaches `r`. -/
theorem processRoutes_flights_fail (api : Api) (origin date : String)
    (r : RouteRecord) (rest : List RouteRecord) (d : String)
    (hd : r.destination = some d)
    (hfail : api.flightsResp origin d date = .fail) :
    ∀ pre : List RouteRecord, (∀ r2 ∈ pre, (RouteRecord.destination r2).isSome) →
      processRoutes api origin date (pre ++ r :: rest) = .error .transport := by
  intro pre
  induction pre with
  | nil =>
    intro _
    simp [processRoutes, hd, hfail]
  | cons p ps ih =>
    intro hpre
    rcases Option.isSome_iff_exists.mp (hpre p (by simp)) with ⟨dp, hdp⟩
    have ih2 := ih fun r2 hr2 => hpre r2 (List.mem_cons_of_mem p hr2)
    cases hf : api.flightsResp origin dp date with
    | fail => simp [processRoutes, hdp, hf]
    | ok fb => simp [processRoutes, hdp, hf, ih2]

/-- C1: a transport-level failure of the routes request, or of the flights
request of any destination the loop can reach, makes `get_all_flights`
return the empty list; no partial rows are surfaced. -/
theorem C1_transport_failure_empty (api : Api) (origin date : String) :
    (api.routesResp = .fail → get_all_flights api origin date = .ok []) ∧
    (∀ (rb : RoutesBody) (pre : List RouteRecord) (r : RouteRecord)
      (rest : List RouteRecord) (d : String),
      api.routesResp = .ok rb →
      rb.routes.getD [] = pre ++ r :: rest →
      (∀ r2 ∈ pre, (RouteRecord.destination r2).isSome) →
      r.destination = some d →
      api.flightsResp origin d date = .fail →
      get_all_flights api origin date = .ok []) := by
  constructor
  · intro h
    simp [get_all_flights, runCollection, h]
  · intro rb pre r rest d hrb hsplit hpre hd hfail
    have hp := processRoutes_flights_fail api origin date r rest d hd hfail pre hpre
    simp [get_all_flights, runCollection, hrb, hsplit, hp]

/-- Instance of C1: in the environment whose routes request fails, the
collection comes back empty. -/
theorem C1_transport_failure_empty_witness :
    get_all_flights apiFail "LGW" "2024-12-01" = .ok [] :=
  (C1_transport_failure_empty apiFail "LGW" "2024-12-01").1 rfl

/-- When every record ahead of `r` carries a destination and a successful
flights response, a record `r` lacking the `destination` key makes the loop
raise `KeyError`. -/
theorem processRoutes_keyError (api : Api) (origin date : String)
    (r : RouteRecord) (rest : List RouteRecord)
    (hnone : r.destination = none) :
    ∀ pre : List RouteRecord,
      (∀ r2 ∈ pre, ∃ d fb, r2.destination = some d ∧
        api.flightsResp origin d date = .ok fb) →
      processRoutes api origin date (pre ++ r :: rest) = .error .keyError := by
  intro pre
  induction pre with
  | nil =>
    intro _
    simp [processRoutes, hnone]
  | cons p ps ih =>
    intro hpre
    rcases hpre p (by simp) with ⟨dp, fb, hdp, hok⟩
    have ih2 := ih fun r2 hr2 => hpre r2 (List.mem_cons_of_mem p hr2)
    simp [processRoutes, hdp, hok, ih2]

/-- C10: a route record lacking the `destination` key makes
`get_all_flights` end in the uncaught `KeyError` (provided the loop reaches
that record), instead of returning the empty list or skipping the record. -/
theorem C10_missing_destination_key_raises (api : Api) (origin date : String)
    (rb : RoutesBody) (pre : List RouteRecord) (r : RouteRecord)
    (rest : List RouteRecord)
    (hrb : api.routesResp = .ok rb)
    (hsplit : rb.routes.getD [] = pre ++ r :: rest)
    (hpre : ∀ r2 ∈ pre, ∃ d fb, r2.destination = some d ∧
      api.flightsResp origin d date = .ok fb)
    (hnone : r.destination = none) :
    get_all_flights api origin date = .error .keyError := by
  have hp := processRoutes_keyError api origin date r rest hnone pre hpre
  simp [get_all_flights, runCollection, hrb, hsplit, hp]

/-- Instance of C10: one route record lacking the `destination` key. -/
theorem C10_missing_destination_key_raises_witness :
    get_all_flights apiKey "LGW" "2024-12-01" = .error .keyError :=
  C10_missing_destination_key_raises apiKey "LGW" "2024-12-01"
    ⟨some [⟨none⟩]⟩ [] ⟨none⟩ [] rfl rfl (by simp) rfl

/-- On the success path the loop yields one row per route with a non-empty
flights list, in route order: the destinations of the rows are exactly the
route destinations whose flights list is non-empty, and the row count plus
the number of empty-flights routes is the route count. -/
theorem processRoutes_ok_spec (api : Api) (origin date : String)
    (rs : List RouteRecord) (rows : List Row)
    (h : processRoutes api origin date rs = .ok rows) :
    rows.map (fun x => x.2.1) =
      (rs.filterMap RouteRecord.destination).filter
        (fun d => !(flightsListOf api origin date d).isEmpty) ∧
    rows.length + (rs.filter (fun r =>
      (flightsListOf api origin date (r.destination.getD "")).isEmpty)).length
      = rs.length := by
  induction rs generalizing rows with
  | nil =>
    simp only [processRoutes, Except.ok.injEq] at h
    subst h
    simp
  | cons r rs ih =>
    cases hd : r.destination with
    | none => simp [processRoutes, hd] at h
    | some d =>
      cases hf : api.flightsResp origin d date with
      | fail => simp [processRoutes, hd, hf] at h
      | ok fb =>
        cases hrec : processRoutes api origin date rs with
        | error e => simp [processRoutes, hd, hf, hrec] at h
        | ok rest =>
          obtain ⟨ih1, ih2⟩ := ih rest hrec
          have hfl : flightsListOf api origin date d = fb.flights.getD [] := by
            simp [flightsListOf, hf]
          by_cases he : (fb.flights.getD []).isEmpty
          · have hrows : rows = rest := by
              simp [processRoutes, hd, hf, hrec, he] at h
              exact h.symm
            subst hrows
            constructor
            · rw [ih1]
              simp [hd, hfl, he]
            · simp [List.filter_cons, hd, hfl, he]
              omega
          · have hrows :
                rows = (calculate_distance origin d, d, lowestPrice (fb.flights.getD [])) :: rest := by
              simp [processRoutes, hd, hf, hrec, he] at h
              exact h.symm
            subst hrows
            constructor
            · simp only [List.map_cons, List.filterMap_cons, hd]
              rw [ih1]
              simp [hfl, he]
            · simp [List.filter_cons, hd, hfl, he]
              omega

/-- C4: in a successful run a destination with an empty flights list yields
no row, the row count is the route count minus the number of empty-flights
destinations, and rows keep exactly the order in which the routes endpoint
returned the destinations. -/
theorem C4_rows_order_and_length (api : Api) (origin date : String)
    (rb : RoutesBody) (rows : List Row)
    (hrb : api.routesResp = .ok rb)
    (hrun : runCollection api origin date = .ok rows) :
    rows.map (fun x => x.2.1) =
      ((rb.routes.getD []).filterMap RouteRecord.destination).filter
        (fun d => !(flightsListOf api origin date d).isEmpty) ∧
    rows.length = (rb.routes.getD []).length -
      ((rb.routes.getD []).filter (fun r =>
        (flightsListOf api origin date (r.destination.getD "")).isEmpty)).length := by
  have h : processRoutes api origin date (rb.routes.getD []) = .ok rows := by
    unfold runCollection at hrun
    rw [hrb] at hrun
    exact hrun
  obtain ⟨h1, h2⟩ := processRoutes_ok_spec api origin date _ rows h
  exact ⟨h1, by omega⟩

/-- The concrete success scenario: collection in `apiOk` succeeds with the
single row for BCN (CDG's flights list is empty). -/
theorem runCollection_apiOk :
    runCollection apiOk "LGW" "2024-12-01" = .ok rowsOk := by
  simp [runCollection, apiOk, rbOk, processRoutes, rowsOk, lowestPrice, effFare,
    min_top_right]

/-- Instance of C4 in the two-route environment: one row, for BCN, CDG
omitted. -/
theorem C4_rows_order_and_length_witness :
    rowsOk.map (fun x => x.2.1) =
      ((rbOk.routes.getD []).filterMap RouteRecord.destination).filter
        (fun d => !(flightsListOf apiOk "LGW" "2024-12-01" d).isEmpty) ∧
    rowsOk.length = (rbOk.routes.getD []).length -
      ((rbOk.routes.getD []).filter (fun r =>
        (flightsListOf apiOk "LGW" "2024-12-01" (r.destination.getD "")).isEmpty)).length :=
  C4_rows_order_and_length apiOk "LGW" "2024-12-01" rbOk rowsOk rfl
    runCollection_apiOk

/-- Folding `min` over a non-empty list with the `⊤` base yields the least
element of the list (Python's `min` with the `float('inf')` sentinel). -/
theorem foldr_min_top_spec (l : List (WithTop ℚ)) (hne : l ≠ []) :
    l.foldr min ⊤ ∈ l ∧ ∀ x ∈ l, l.foldr min ⊤ ≤ x := by
  induction l with
  | nil => exact absurd rfl hne
  | cons a l ih =>
    cases l with
    | nil => simp
    | cons b m =>
      obtain ⟨hmem, hle⟩ := ih (by simp)
      constructor
      · rcases le_total a ((b :: m).foldr min ⊤) with h | h
        · rw [List.foldr_cons, min_eq_left h]
          exact List.mem_cons_self a (b :: m)
        · rw [List.foldr_cons, min_eq_right h]
          exact List.mem_cons_of_mem a hmem
      · intro x hx
        rcases List.mem_cons.mp hx with hx | hx
        · rw [hx, List.foldr_cons]
          exact min_le_left _ _
        · exact le_trans (min_le_right _ _) (hle x hx)

/-- On the success path every produced row's price is `lowestPrice` of that
destination's flights list, which is itself the least of the effective
fares; the flights list behind the row is non-empty. -/
theorem processRoutes_ok_prices (api : Api) (origin date : String)
    (rs : List RouteRecord) (rows : List Row)
    (h : processRoutes api origin date rs = .ok rows) :
    ∀ row ∈ rows,
      flightsListOf api origin date row.2.1 ≠ [] ∧
      row.2.2 = lowestPrice (flightsListOf api origin date row.2.1) ∧
      row.2.2 ∈ (flightsListOf api origin date row.2.1).map effFare ∧
      ∀ q ∈ (flightsListOf api origin date row.2.1).map effFare, row.2.2 ≤ q := by
  induction rs generalizing rows with
  | nil =>
    simp only [processRoutes, Except.ok.injEq] at h
    subst h
    intro row hrow
    exact absurd hrow (List.not_mem_nil row)
  | cons r rs ih =>
    cases hd : r.destination with
    | none => simp [processRoutes, hd] at h
    | some d =>
      cases hf : api.flightsResp origin d date with
      | fail => simp [processRoutes, hd, hf] at h
      | ok fb =>
        cases hrec : processRoutes api origin date rs with
        | error e => simp [processRoutes, hd, hf, hrec] at h
        | ok rest =>
          have ihrest := ih rest hrec
          have hfl : flightsListOf api origin date d = fb.flights.getD [] := by
            simp [flightsListOf, hf]
          by_cases he : (fb.flights.getD []).isEmpty
          · have hrows : rows = rest := by
              simp [processRoutes, hd, hf, hrec, he] at h
              exact h.symm
            subst hrows
            exact ihrest
          · have hrows :
                rows = (calculate_distance origin d, d, lowestPrice (fb.flights.getD [])) :: rest := by
              simp [processRoutes, hd, hf, hrec, he] at h
              exact h.symm
            subst hrows
            intro row hrow
            rcases List.mem_cons.mp hrow with hrow | hrow
            · subst hrow
              have hne : fb.flights.getD [] ≠ [] := by
                simpa [List.isEmpty_iff] using he
              have hne2 : (fb.flights.getD []).map effFare ≠ [] := by
                simpa using hne
              obtain ⟨hmem, hle⟩ := foldr_min_top_spec _ hne2
              refine ⟨by simpa [hfl] using hne, by simp [hfl], ?_, ?_⟩
              · simpa [hfl, lowestPrice] using hmem
              · simpa [hfl, lowestPrice] using hle
            · exact ihrest row hrow

/-- C3: in a successful run the price recorded in each row is the minimum of
the effective fares of that destination's flights (a flight with a missing
`pricing` or `lowestFare` field contributing the infinite sentinel), over a
non-empty flights list. -/
theorem C3_price_is_min_fare (api : Api) (origin date : String)
    (rows : List Row)
    (hrun : runCollection api origin date = .ok rows) :
    ∀ row ∈ rows,
      flightsListOf api origin date row.2.1 ≠ [] ∧
      row.2.2 = lowestPrice (flightsListOf api origin date row.2.1) ∧
      row.2.2 ∈ (flightsListOf api origin date row.2.1).map effFare ∧
      ∀ q ∈ (flightsListOf api origin date row.2.1).map effFare, row.2.2 ≤ q := by
  unfold runCollection at hrun
  cases hr : api.routesResp with
  | fail => rw [hr] at hrun; cases hrun
  | ok rb =>
    rw [hr] at hrun
    exact processRoutes_ok_prices api origin date _ rows hrun

/-- Instance of C3 at the BCN row of the concrete success scenario. -/
theorem C3_price_is_min_fare_witness :
    flightsListOf apiOk "LGW" "2024-12-01" "BCN" ≠ [] ∧
    ((80 : ℚ) : WithTop ℚ) =
      lowestPrice (flightsListOf apiOk "LGW" "2024-12-01" "BCN") ∧
    ((80 : ℚ) : WithTop ℚ) ∈
      (flightsListOf apiOk "LGW" "2024-12-01" "BCN").map effFare ∧
    ∀ q ∈ (flightsListOf apiOk "LGW" "2024-12-01" "BCN").map effFare,
      ((80 : ℚ) : WithTop ℚ) ≤ q :=
  C3_price_is_min_fare apiOk "LGW" "2024-12-01" rowsOk runCollection_apiOk
    (calculate_distance "LGW" "BCN", "BCN", ((80 : ℚ) : WithTop ℚ))
    (by simp [rowsOk])

/-- The two-digit fragment of the fixed-point rendering has length 2. -/
theorem twoDigits_length (k : Nat) (hk : k < 100) :
    (twoDigits k).length = 2 := by
  unfold twoDigits
  split
  · rename_i h
    interval_cases k <;> rfl
  · rename_i h
    have h10 : 10 ≤ k := Nat.not_lt.mp h
    interval_cases k <;> rfl

/-- The fixed-point core always renders with a point followed by exactly two
digits. -/
theorem fixed2core_two_decimals (n : ℤ) :
    ∃ a b, fixed2core n = a ++ "." ++ b ∧ b.length = 2 := by
  refine ⟨(if n < 0 then "-" else "") ++ toString (n.natAbs / 100),
    twoDigits (n.natAbs % 100), ?_, ?_⟩
  · unfold fixed2core
    simp [String.append_assoc]
  · exact twoDigits_length _ (Nat.mod_lt _ (by norm_num))

/-- C9 fails as stated: the destination field of the console line is padded
on the right (left-justified), not on the left, and a destination longer
than 11 characters is not truncated to width 11. -/
theorem C9_counterexample :
    padStrField 11 "BCN" ≠ "        BCN" ∧
    (padStrField 11 "TRANSATLANTIC").length ≠ 11 := by
  constructor
  · decide
  · decide

/-- C9 (amended): the console line renders the distance with two decimal
places right-aligned to minimum width 11, the destination left-justified and
right-padded with spaces to minimum width 11 — never truncated — and the
price with two decimal places right-aligned to minimum width 5. -/
theorem C9_amended_line_format (r : Row) (q : ℚ) :
    formatLine r = padNumField 11 (fixed2R r.1) ++ " | " ++
      (r.2.1 ++ String.replicate (11 - r.2.1.length) ' ') ++ " | " ++
      padNumField 5 (fixed2Price r.2.2) ∧
    (padStrField 11 r.2.1).length = max 11 r.2.1.length ∧
    (∃ a b, fixed2R r.1 = a ++ "." ++ b ∧ b.length = 2) ∧
    (∃ a b, fixed2Q q = a ++ "." ++ b ∧ b.length = 2) := by
  refine ⟨rfl, ?_, fixed2core_two_decimals _, fixed2core_two_decimals _⟩
  unfold padStrField
  rw [String.length_append, String.length_replicate]
  omega

/-- Alternating-series bounds for sine on a rational interval inside
`[0, 1]`, from the quartic remainder bound on its cubic Taylor polynomial. -/
theorem sin_taylor_bounds (x lo hi : ℝ) (h0 : 0 ≤ lo) (hlo : lo ≤ x)
    (hhi : x ≤ hi) (h1 : hi ≤ 1) :
    lo - lo ^ 3 / 6 - hi ^ 4 * (5 / 96) ≤ Real.sin x ∧
    Real.sin x ≤ hi - hi ^ 3 / 6 + hi ^ 4 * (5 / 96) := by
  have hx0 : 0 ≤ x := le_trans h0 hlo
  have hx1 : x ≤ 1 := le_trans hhi h1
  have hb := Real.sin_bound (x := x) (by rw [abs_of_nonneg hx0]; exact hx1)
  rw [abs_of_nonneg hx0] at hb
  obtain ⟨hb1, hb2⟩ := abs_le.mp hb
  have hx4 : x ^ 4 ≤ hi ^ 4 := pow_le_pow_left₀ hx0 hhi 4
  have hhi0 : 0 ≤ hi := le_trans hx0 hhi
  have keyhi : 0 ≤ (hi - x) * (6 - (hi ^ 2 + hi * x + x ^ 2)) := by
    apply mul_nonneg (by linarith)
    nlinarith [mul_nonneg hhi0 hx0]
  have keylo : 0 ≤ (x - lo) * (6 - (x ^ 2 + x * lo + lo ^ 2)) := by
    apply mul_nonneg (by linarith)
    nlinarith [mul_nonneg hx0 h0]
  constructor <;> nlinarith

/-- Rational bounds on a nonnegative rational multiple of pi. -/
theorem pi_mul_bounds (coef lo hi : ℝ) (hc : 0 ≤ coef)
    (hlo : lo ≤ coef * 3.141592) (hhi : coef * 3.141593 ≤ hi) :
    lo ≤ coef * Real.pi ∧ coef * Real.pi ≤ hi := by
  have h1 := Real.pi_gt_d6
  have h2 := Real.pi_lt_d6
  constructor <;> nlinarith

/-- Half-angle rewriting of the cosine, used to bound the two latitude
cosines through sine bounds at half the angle. -/
theorem cos_eq_one_sub_two_sin_sq (x : ℝ) :
    Real.cos x = 1 - 2 * Real.sin (x / 2) ^ 2 := by
  have h2 := Real.cos_two_mul (x / 2)
  have h3 := Real.sin_sq_add_cos_sq (x / 2)
  have hx : 2 * (x / 2) = x := by ring
  rw [hx] at h2
  linarith

/-- Squaring respects interval bounds on nonnegative values. -/
theorem sq_bounds (s lo hi : ℝ) (h0 : 0 ≤ lo) (h1 : lo ≤ s) (h2 : s ≤ hi) :
    lo ^ 2 ≤ s ^ 2 ∧ s ^ 2 ≤ hi ^ 2 := by
  constructor <;> nlinarith

/-- Multiplication respects interval bounds on nonnegative values. -/
theorem mul_bounds (x y xl xh yl yh : ℝ) (hx0 : 0 ≤ xl) (hy0 : 0 ≤ yl)
    (h1 : xl ≤ x) (h2 : x ≤ xh) (h3 : yl ≤ y) (h4 : y ≤ yh) :
    xl * yl ≤ x * y ∧ x * y ≤ xh * yh := by
  constructor <;> nlinarith

/-- Rounding to two decimals moves a value by at most half a cent. -/
theorem round2_close (x : ℝ) : |round2 x - x| ≤ 1 / 200 := by
  unfold round2
  have h := abs_sub_round (100 * x)
  rw [abs_sub_comm] at h
  have e : ((round (100 * x) : ℤ) : ℝ) / 100 - x =
      (((round (100 * x) : ℤ) : ℝ) - 100 * x) / 100 := by ring
  rw [e, abs_div]
  rw [show |(100 : ℝ)| = 100 by norm_num]
  linarith

/-- Interval bound for `1 - 2 s^2` from an interval bound for `s`. -/
theorem cos_interval (s lo hi c1 c2 : ℝ) (h0 : 0 ≤ lo) (h1 : lo ≤ s)
    (h2 : s ≤ hi) (hc1 : c1 ≤ 1 - 2 * hi ^ 2) (hc2 : 1 - 2 * lo ^ 2 ≤ c2) :
    c1 ≤ 1 - 2 * s ^ 2 ∧ 1 - 2 * s ^ 2 ≤ c2 := by
  obtain ⟨a, b⟩ := sq_bounds s lo hi h0 h1 h2
  constructor <;> linarith

/-- Interval bound for the Haversine kernel of the LGW-BCN pair from
interval bounds on its four factors. -/
theorem haversine_kernel_bounds (su sv c1 c2 : ℝ)
    (hsuL : 0.0859034 ≤ su) (hsuH : su ≤ 0.0859093)
    (hsvL : 0.0197680 ≤ sv) (hsvH : sv ≤ 0.0197682)
    (hc1L : 0.6239081 ≤ c1) (hc1H : c1 ≤ 0.6310494)
    (hc2L : 0.7501244 ≤ c2) (hc2H : c2 ≤ 0.7526032) :
    0.0075622 ≤ su ^ 2 + c1 * c2 * sv ^ 2 ∧
    su ^ 2 + c1 * c2 * sv ^ 2 ≤ 0.0075661 := by
  obtain ⟨hsu2L, hsu2H⟩ := sq_bounds su 0.0859034 0.0859093 (by norm_num) hsuL hsuH
  obtain ⟨hsv2L, hsv2H⟩ := sq_bounds sv 0.0197680 0.0197682 (by norm_num) hsvL hsvH
  obtain ⟨hccL, hccH⟩ := mul_bounds c1 c2 0.6239081 0.6310494 0.7501244 0.7526032
    (by norm_num) (by norm_num) hc1L hc1H hc2L hc2H
  obtain ⟨htL, htH⟩ := mul_bounds (c1 * c2) (sv ^ 2) 0.4680 0.4750
    (0.0197680 ^ 2) (0.0197682 ^ 2) (by norm_num) (by norm_num)
    (le_trans (by norm_num) hccL) (le_trans hccH (by norm_num)) hsv2L hsv2H
  have e1 : (0.0075622 : ℝ) ≤ 0.0859034 ^ 2 + 0.4680 * 0.0197680 ^ 2 := by norm_num
  have e2 : (0.0859093 : ℝ) ^ 2 + 0.4750 * 0.0197682 ^ 2 ≤ 0.0075661 := by norm_num
  constructor <;> linarith

set_option maxHeartbeats 1000000 in
/-- Verified interval for the LGW-BCN Haversine distance the source
computes: it lies in [1109.41, 1109.79] kilometers. -/
theorem dist_LGW_BCN_bounds :
    1109.41 ≤ calculate_distance "LGW" "BCN" ∧
    calculate_distance "LGW" "BCN" ≤ 1109.79 := by
  have hLg : airport_coords "LGW" = some (51.1537, -0.1821) := rfl
  have hBc : airport_coords "BCN" = some (41.2974, 2.0833) := rfl
  simp only [calculate_distance, hLg, hBc, radians]
  rw [show (41.2974 * (Real.pi / 180) - 51.1537 * (Real.pi / 180)) / 2
      = -(4.92815 / 180 * Real.pi) by ring]
  rw [Real.sin_neg, neg_sq]
  rw [show (2.0833 * (Real.pi / 180) - -0.1821 * (Real.pi / 180)) / 2
      = 1.1327 / 180 * Real.pi by ring]
  rw [cos_eq_one_sub_two_sin_sq (51.1537 * (Real.pi / 180)),
    cos_eq_one_sub_two_sin_sq (41.2974 * (Real.pi / 180))]
  rw [show 51.1537 * (Real.pi / 180) / 2 = 51.1537 / 360 * Real.pi by ring]
  rw [show 41.2974 * (Real.pi / 180) / 2 = 41.2974 / 360 * Real.pi by ring]
  set su := Real.sin (4.92815 / 180 * Real.pi) with hsu
  set sv := Real.sin (1.1327 / 180 * Real.pi) with hsv
  set s1 := Real.sin (51.1537 / 360 * Real.pi) with hs1
  set s2 := Real.sin (41.2974 / 360 * Real.pi) with hs2
  obtain ⟨hu1, hu2⟩ := pi_mul_bounds (4.92815 / 180) 0.0860124 0.0860125
    (by norm_num) (by norm_num) (by norm_num)
  obtain ⟨hsu1, hsu2⟩ := sin_taylor_bounds _ _ _ (by norm_num) hu1 hu2 (by norm_num)
  rw [← hsu] at hsu1 hsu2
  have hsuL : (0.0859034 : ℝ) ≤ su := le_trans (by norm_num) hsu1
  have hsuH : su ≤ 0.0859093 := le_trans hsu2 (by norm_num)
  clear hsu1 hsu2 hu1 hu2
  obtain ⟨hv1, hv2⟩ := pi_mul_bounds (1.1327 / 180) 0.0197693 0.0197694
    (by norm_num) (by norm_num) (by norm_num)
  obtain ⟨hsv1, hsv2⟩ := sin_taylor_bounds _ _ _ (by norm_num) hv1 hv2 (by norm_num)
  rw [← hsv] at hsv1 hsv2
  have hsvL : (0.0197680 : ℝ) ≤ sv := le_trans (by norm_num) hsv1
  have hsvH : sv ≤ 0.0197682 := le_trans hsv2 (by norm_num)
  clear hsv1 hsv2 hv1 hv2
  obtain ⟨h11, h12⟩ := pi_mul_bounds (51.1537 / 360) 0.4464001 0.4464003
    (by norm_num) (by norm_num) (by norm_num)
  obtain ⟨hs11, hs12⟩ := sin_taylor_bounds _ _ _ (by norm_num) h11 h12 (by norm_num)
  rw [← hs1] at hs11 hs12
  have hs1L : (0.4295059 : ℝ) ≤ s1 := le_trans (by norm_num) hs11
  have hs1H : s1 ≤ 0.4336426 := le_trans hs12 (by norm_num)
  clear hs11 hs12 h11 h12
  obtain ⟨h21, h22⟩ := pi_mul_bounds (41.2974 / 360) 0.3603877 0.3603879
    (by norm_num) (by norm_num) (by norm_num)
  obtain ⟨hs21, hs22⟩ := sin_taylor_bounds _ _ _ (by norm_num) h21 h22 (by norm_num)
  rw [← hs2] at hs21 hs22
  have hs2L : (0.3517079 : ℝ) ≤ s2 := le_trans (by norm_num) hs21
  have hs2H : s2 ≤ 0.3534654 := le_trans hs22 (by norm_num)
  clear hs21 hs22 h21 h22
  obtain ⟨hc1L, hc1H⟩ := cos_interval s1 0.4295059 0.4336426 0.6239081 0.6310494
    (by norm_num) hs1L hs1H (by norm_num) (by norm_num)
  obtain ⟨hc2L, hc2H⟩ := cos_interval s2 0.3517079 0.3534654 0.7501244 0.7526032
    (by norm_num) hs2L hs2H (by norm_num) (by norm_num)
  obtain ⟨hAL, hAH⟩ := haversine_kernel_bounds su sv (1 - 2 * s1 ^ 2) (1 - 2 * s2 ^ 2)
    hsuL hsuH hsvL hsvH hc1L hc1H hc2L hc2H
  clear hsuL hsuH hsvL hsvH hs1L hs1H hs2L hs2H hc1L hc1H hc2L hc2H
  set A := su ^ 2 + (1 - 2 * s1 ^ 2) * (1 - 2 * s2 ^ 2) * sv ^ 2 with hA
  have hA0 : (0 : ℝ) ≤ A := by linarith
  have hsqL : (0.0869609 : ℝ) ≤ Real.sqrt A :=
    Real.le_sqrt_of_sq_le (le_trans (by norm_num) hAL)
  have hsqH : Real.sqrt A ≤ 0.0869834 :=
    Real.sqrt_le_iff.mpr ⟨by norm_num, le_trans hAH (by norm_num)⟩
  have h1A : (0 : ℝ) < 1 - A := by linarith
  have hsq1A : 0 < Real.sqrt (1 - A) := Real.sqrt_pos.mpr h1A
  have hatan : atan2 (Real.sqrt A) (Real.sqrt (1 - A)) =
      Real.arctan (Real.sqrt A / Real.sqrt (1 - A)) := by
    unfold atan2
    rw [if_pos hsq1A]
  have hmem : Real.sqrt A ∈ Set.Ioo (-(1 : ℝ)) 1 := by
    constructor <;> [linarith; linarith]
  have harcsin : Real.arctan (Real.sqrt A / Real.sqrt (1 - A)) =
      Real.arcsin (Real.sqrt A) := by
    rw [show Real.sqrt (1 - A) = Real.sqrt (1 - Real.sqrt A ^ 2) by
      rw [Real.sq_sqrt hA0]]
    exact (Real.arcsin_eq_arctan hmem).symm
  rw [hatan, harcsin]
  have hpi := Real.pi_gt_d6
  have hLb : (0.0870679 : ℝ) ≤ Real.arcsin (Real.sqrt A) := by
    have hs := (sin_taylor_bounds 0.0870679 0.0870679 0.0870679
      (by norm_num) le_rfl le_rfl (by norm_num)).2
    have hle : Real.sin 0.0870679 ≤ Real.sqrt A :=
      le_trans (le_trans hs (by norm_num)) hsqL
    have harc := Real.monotone_arcsin hle
    rwa [Real.arcsin_sin (by linarith) (by linarith)] at harc
  have hUb : Real.arcsin (Real.sqrt A) ≤ 0.0870966 := by
    have hs := (sin_taylor_bounds 0.0870966 0.0870966 0.0870966
      (by norm_num) le_rfl le_rfl (by norm_num)).1
    have hle : Real.sqrt A ≤ Real.sin 0.0870966 :=
      le_trans hsqH (le_trans (by norm_num) hs)
    have harc := Real.monotone_arcsin hle
    rwa [Real.arcsin_sin (by linarith) (by linarith)] at harc
  have hr := round2_close (6371 * (2 * Real.arcsin (Real.sqrt A)))
  obtain ⟨hr1, hr2⟩ := abs_le.mp hr
  constructor <;> linarith

/-- C7 fails as stated: the distance the source computes for LGW-BCN is
below 1135 km, hence not within 2 km of the 1137-1140 km range the
specification quotes. -/
theorem C7_counterexample : calculate_distance "LGW" "BCN" < 1135 := by
  have h := dist_LGW_BCN_bounds
  linarith [h.2]

/-- C7 (amended): the computed LGW-BCN distance falls within 2 km of the
true Haversine reference value for these coordinates, which is about
1109.59 km (the 1137-1140 km figure in the specification does not match the
stored coordinates). -/
theorem C7_amended_known_value :
    |calculate_distance "LGW" "BCN" - 1109.59| ≤ 2 := by
  have h := dist_LGW_BCN_bounds
  rw [abs_le]
  exact ⟨by linarith [h.1], by linarith [h.2]⟩
